import Mathlib

/-
  Verification development for the Omnicart shopping backend core:
  offer normalization, ranking policy, offer aggregation with fallback
  synthesis, and the price-drift / alert simulation loop.

  The JavaScript source is shallowly embedded: persisted rows become Lean
  structures, async database access becomes explicit state passing over a
  `DB` record, machine numbers become `Int`/`Rat` (DB money and day fields
  are integers in the source; fractional arithmetic such as price drift is
  exact rational arithmetic, standing in for IEEE doubles whose results
  coincide on every quantity considered here), a thrown exception becomes
  an explicit error value, and the provider randomness/network are injected
  as oracle parameters.
-/

namespace Omnicart

/-- Does the haystack contain the needle as a contiguous run of characters. -/
def hasInfix : List Char → List Char → Bool
  | [], needle => needle.isEmpty
  | h :: t, needle => needle.isPrefixOf (h :: t) || hasInfix t needle

/-- Translation of JavaScript `String.prototype.includes`:
substring containment over the character list. -/
def jsIncludes (s sub : String) : Bool :=
  hasInfix s.toList sub.toList

/-- Translation of JavaScript `String.prototype.trim`: strip whitespace
from both ends (over the character list, so proofs can compute). -/
def jsTrim (s : String) : String :=
  String.mk (((s.toList.dropWhile Char.isWhitespace).reverse.dropWhile
    Char.isWhitespace).reverse)

/-- Embeds `normalizeWhitespace` from recognitionService.js /
webSearchProvider.js: `String(value || '').replace(/\s+/g, ' ').trim()`.
Runs of whitespace collapse to one space, then the ends are trimmed. -/
def squeezeWs : List Char → List Char
  | [] => []
  | [c] => [if c.isWhitespace then ' ' else c]
  | c :: d :: rest =>
    if c.isWhitespace && d.isWhitespace then squeezeWs (d :: rest)
    else (if c.isWhitespace then ' ' else c) :: squeezeWs (d :: rest)

def normalizeWhitespace (s : String) : String :=
  jsTrim (String.mk (squeezeWs s.toList))

/-- Translation of JavaScript `String.prototype.toUpperCase` for the ASCII
strings this code base handles (strategy names, vendor URLs). -/
def jsToUpperCase (s : String) : String :=
  String.mk (s.toList.map Char.toUpper)

/-- Translation of JavaScript `String.prototype.toLowerCase` for ASCII
strings. -/
def jsToLowerCase (s : String) : String :=
  String.mk (s.toList.map Char.toLower)

/-- Embeds `isLikelySearchUrl` (recognitionService.js lines 247-256):
does the lowercased URL contain a generic search-query marker. -/
def isLikelySearchUrl (url : String) : Bool :=
  let u := jsToLowerCase url
  jsIncludes u "/s?" || jsIncludes u "/search" || jsIncludes u "?q=" ||
    jsIncludes u "&q=" || jsIncludes u "_nkw="

/-- Embeds `isExactListingUrl` (recognitionService.js lines 258-268):
does the lowercased URL contain a known vendor product-detail segment. -/
def isExactListingUrl (url : String) : Bool :=
  let u := jsToLowerCase url
  jsIncludes u "/dp/" || jsIncludes u "/gp/product/" || jsIncludes u "/itm/" ||
    jsIncludes u "walmart.com/ip/" || jsIncludes u "target.com/p/" ||
    jsIncludes u "bestbuy.com/site/"

/-- A persisted Offer row (prisma model `Offer`).  Ids are cuid strings in
the source; money and day fields are integers. -/
structure Offer where
  id : String
  vendorId : String
  vendorName : String
  productId : String
  title : String
  priceCents : Int
  shippingCents : Int
  etaDays : Int
  inStock : Bool
  productUrl : String
deriving Repr, DecidableEq

/-- The wire shape produced by `normalizeOffer`. -/
structure NormalizedOffer where
  id : String
  vendorId : String
  vendorName : String
  productId : String
  title : String
  priceCents : Int
  shippingCents : Int
  etaDays : Int
  inStock : Bool
  productUrl : String
  listingVerified : Bool
  listingType : String
  itemCondition : Option String
deriving Repr, DecidableEq

/-- Embeds `normalizeOffer` (recognitionService.js lines 270-290). -/
def normalizeOffer (dbOffer : Offer) : NormalizedOffer :=
  let productUrl := jsTrim dbOffer.productUrl
  let listingVerified := isExactListingUrl productUrl && !isLikelySearchUrl productUrl
  let listingType :=
    if listingVerified then "EXACT"
    else if productUrl ≠ "" then "ESTIMATED" else "ESTIMATED"
  { id := dbOffer.id
    vendorId := dbOffer.vendorId
    vendorName := dbOffer.vendorName
    productId := dbOffer.productId
    title := dbOffer.title
    priceCents := dbOffer.priceCents
    shippingCents := dbOffer.shippingCents
    etaDays := dbOffer.etaDays
    inStock := dbOffer.inStock
    productUrl := productUrl
    listingVerified := listingVerified
    listingType := listingType
    itemCondition := none }

/-- The strategy normalisation `String(strategy || 'BALANCED').toUpperCase()`:
an empty (falsy) strategy string falls back to BALANCED. -/
def strategyPref (strategy : String) : String :=
  jsToUpperCase (if strategy = "" then "BALANCED" else strategy)

/-- Embeds the comparator passed to `list.slice().sort(...)` inside
`recommendedOfferIdForStrategy` (recognitionService.js lines 303-318).
Returns the JS comparator's signed number. -/
def offerCmp (pref : String) (a b : NormalizedOffer) : Int :=
  let ta := a.priceCents + a.shippingCents
  let tb := b.priceCents + b.shippingCents
  if pref = "FASTEST_SHIPPING" then
    if a.etaDays ≠ b.etaDays then a.etaDays - b.etaDays else ta - tb
  else if pref = "BEST_PRICE" then
    if ta ≠ tb then ta - tb else a.etaDays - b.etaDays
  else
    if ta ≠ tb then ta - tb else a.etaDays - b.etaDays

/-- Embeds `recommendedOfferIdForStrategy` (recognitionService.js lines
298-321).  JavaScript `Array.prototype.sort` is a stable sort (ES2019), so
it is embedded as an insertion sort with the relation "comparator ≤ 0";
`sorted[0]?.id || null` maps a falsy (empty) id to null. -/
def recommendedOfferIdForStrategy (offers : List NormalizedOffer) (strategy : String) :
    Option String :=
  let list := offers.filter (fun o => o.inStock)
  if list.isEmpty then none
  else
    let pref := strategyPref strategy
    let sorted := list.insertionSort (fun a b => offerCmp pref a b ≤ 0)
    match sorted.head? with
    | none => none
    | some o => if o.id = "" then none else some o.id

/-! First-minimum selection.  Both the ranking policy (head of a stable
sort) and the price monitor's reduce-based best-offer selection pick the
first element of the input attaining the minimal key.  The following
generic function and lemmas characterise that element. -/

/-- The first element of the list attaining the minimum of the total
preorder described by the boolean relation `le`; ties keep the earlier
element. -/
def firstMinBy {α : Type} (le : α → α → Bool) : List α → Option α
  | [] => none
  | x :: xs =>
    match firstMinBy le xs with
    | none => some x
    | some m => if le x m then some x else some m

theorem firstMinBy_cons {α : Type} (le : α → α → Bool) (x : α) (l : List α) :
    firstMinBy le (x :: l) = match firstMinBy le l with
      | none => some x
      | some m => if le x m then some x else some m := rfl

theorem firstMinBy_eq_none {α : Type} (le : α → α → Bool) (l : List α) :
    firstMinBy le l = none ↔ l = [] := by
  cases l with
  | nil => simp [firstMinBy]
  | cons x xs =>
    simp only [firstMinBy]
    cases firstMinBy le xs with
    | none => simp
    | some m =>
      by_cases h : le x m <;> simp [h]

theorem firstMinBy_mem {α : Type} (le : α → α → Bool) (l : List α) (o : α)
    (h : firstMinBy le l = some o) : o ∈ l := by
  induction l generalizing o with
  | nil => simp [firstMinBy] at h
  | cons x xs ih =>
    simp only [firstMinBy] at h
    split at h
    · simp only [Option.some.injEq] at h
      subst o
      exact List.mem_cons_self x xs
    · rename_i m hm
      split at h
      · simp only [Option.some.injEq] at h
        subst o
        exact List.mem_cons_self x xs
      · simp only [Option.some.injEq] at h
        subst o
        exact List.mem_cons_of_mem x (ih m hm)

theorem firstMinBy_min {α : Type} (le : α → α → Bool)
    (htot : ∀ a b, le a b = true ∨ le b a = true)
    (htrans : ∀ a b c, le a b = true → le b c = true → le a c = true)
    (l : List α) (o : α) (h : firstMinBy le l = some o) :
    ∀ p ∈ l, le o p = true := by
  have hrefl : ∀ a, le a a = true := fun a => by
    rcases htot a a with h1 | h1 <;> exact h1
  induction l generalizing o with
  | nil => simp [firstMinBy] at h
  | cons x xs ih =>
    simp only [firstMinBy] at h
    split at h
    · rename_i hnone
      simp only [Option.some.injEq] at h
      subst o
      have hnil : xs = [] := (firstMinBy_eq_none le xs).mp hnone
      subst hnil
      intro p hp
      simp only [List.mem_singleton] at hp
      subst p
      exact hrefl x
    · rename_i m hm
      split at h
      · rename_i hc
        simp only [Option.some.injEq] at h
        subst o
        intro p hp
        rcases List.mem_cons.mp hp with hpx | hpxs
        · subst p; exact hrefl x
        · exact htrans x m p hc (ih m hm p hpxs)
      · rename_i hc
        simp only [Option.some.injEq] at h
        subst o
        intro p hp
        rcases List.mem_cons.mp hp with hpx | hpxs
        · subst p
          rcases htot m x with h1 | h1
          · exact h1
          · exact absurd h1 hc
        · exact ih m hm p hpxs

theorem firstMinBy_earliest {α : Type} (le : α → α → Bool) (l : List α) (o : α)
    (h : firstMinBy le l = some o) :
    ∃ n, ∃ hn : n < l.length, l.get ⟨n, hn⟩ = o ∧
      ∀ m, ∀ hm : m < l.length, m < n → le (l.get ⟨m, hm⟩) o = false := by
  induction l generalizing o with
  | nil => simp [firstMinBy] at h
  | cons x xs ih =>
    simp only [firstMinBy] at h
    split at h
    · simp only [Option.some.injEq] at h
      subst o
      exact ⟨0, by simp, by simp, fun m hm hm0 => absurd hm0 (Nat.not_lt_zero m)⟩
    · rename_i m hm
      split at h
      · simp only [Option.some.injEq] at h
        subst o
        exact ⟨0, by simp, by simp, fun k hk hk0 => absurd hk0 (Nat.not_lt_zero k)⟩
      · rename_i hc
        simp only [Option.some.injEq] at h
        subst o
        obtain ⟨n, hn, hget, hearly⟩ := ih m hm
        refine ⟨n + 1, by simpa using Nat.succ_lt_succ hn, by simpa using hget, ?_⟩
        intro k hk hkn
        cases k with
        | zero =>
          simp only [Bool.not_eq_true] at hc
          simpa using hc
        | succ j =>
          have hj : j < xs.length := by simpa using hk
          exact hearly j hj (Nat.lt_of_succ_lt_succ hkn)

/-- Head of a stable insertion sort is the first minimum of the input. -/
theorem head_insertionSort_eq_firstMinBy {α : Type} (r : α → α → Prop)
    [DecidableRel r] (le : α → α → Bool) (hr : ∀ a b, r a b ↔ le a b = true)
    (l : List α) : (l.insertionSort r).head? = firstMinBy le l := by
  induction l with
  | nil => simp [firstMinBy]
  | cons x xs ih =>
    simp only [List.insertionSort, firstMinBy]
    have hlen : (xs.insertionSort r).length = xs.length :=
      (List.perm_insertionSort r xs).length_eq
    cases hs : xs.insertionSort r with
    | nil =>
      have : firstMinBy le xs = none := by
        rw [← ih, hs]; rfl
      rw [this]
      simp [List.orderedInsert]
    | cons y t =>
      have hhead : firstMinBy le xs = some y := by
        rw [← ih, hs]; rfl
      rw [hhead]
      simp only [List.orderedInsert]
      by_cases hc : r x y
      · have : le x y = true := (hr x y).mp hc
        simp [hc, this]
      · have : ¬ le x y = true := fun hh => hc ((hr x y).mpr hh)
        simp [hc, this]

/-! Ranking policy: BEST_PRICE / BALANCED ordering. -/

/-- The BEST_PRICE (and BALANCED) total preorder: ascending
priceCents+shippingCents, ties broken by ascending etaDays. -/
def bpLe (a b : NormalizedOffer) : Bool :=
  decide (a.priceCents + a.shippingCents < b.priceCents + b.shippingCents) ||
    (decide (a.priceCents + a.shippingCents = b.priceCents + b.shippingCents) &&
      decide (a.etaDays ≤ b.etaDays))

theorem bpLe_total (a b : NormalizedOffer) : bpLe a b = true ∨ bpLe b a = true := by
  simp only [bpLe, Bool.or_eq_true, Bool.and_eq_true, decide_eq_true_eq]
  omega

theorem bpLe_trans (a b c : NormalizedOffer) (hab : bpLe a b = true)
    (hbc : bpLe b c = true) : bpLe a c = true := by
  simp only [bpLe, Bool.or_eq_true, Bool.and_eq_true, decide_eq_true_eq] at *
  omega

/-- Every non-FASTEST_SHIPPING strategy string makes the source comparator
order offers by the BEST_PRICE preorder. -/
theorem offerCmp_nonpos_iff_bpLe (p : String) (hp : p ≠ "FASTEST_SHIPPING")
    (a b : NormalizedOffer) : offerCmp p a b ≤ 0 ↔ bpLe a b = true := by
  simp only [offerCmp, if_neg hp, bpLe, Bool.or_eq_true, Bool.and_eq_true,
    decide_eq_true_eq]
  by_cases hbp : p = "BEST_PRICE" <;> simp only [hbp, if_pos, if_neg, ite_true] <;>
    split <;> omega

/-- Shared shape lemma: for any strategy whose normalised form is not
FASTEST_SHIPPING, the ranking policy returns the id of the first
BEST_PRICE-minimal in-stock offer (with the source's falsy-id fallback). -/
theorem rank_shape (offers : List NormalizedOffer) (strategy : String)
    (hp : strategyPref strategy ≠ "FASTEST_SHIPPING") :
    recommendedOfferIdForStrategy offers strategy =
      match firstMinBy bpLe (offers.filter (fun o => o.inStock)) with
      | none => none
      | some o => if o.id = "" then none else some o.id := by
  unfold recommendedOfferIdForStrategy
  by_cases hemp : (offers.filter (fun o => o.inStock)).isEmpty
  · have hnil : offers.filter (fun o => o.inStock) = [] := List.isEmpty_iff.mp hemp
    simp [hemp, hnil, firstMinBy]
  · simp only [hemp, if_neg, Bool.false_eq_true, not_false_eq_true, ite_false]
    rw [head_insertionSort_eq_firstMinBy _ bpLe
      (offerCmp_nonpos_iff_bpLe (strategyPref strategy) hp)]

/-- Claim C1: for every list of normalized offers, the ranking policy under
BEST_PRICE returns the id of the first in-stock offer attaining the minimal
priceCents+shippingCents total, ties broken by minimal etaDays and then by
input order (every earlier in-stock offer is strictly worse); only inStock
offers participate, and an empty in-stock set yields null.  (The source
also maps a falsy offer id to null; the hypothesis excludes empty id
strings, which cuid-generated ids never are.) -/
theorem ranking_best_price_first_minimum (offers : List NormalizedOffer)
    (hids : ∀ o ∈ offers, o.id ≠ "") :
    (recommendedOfferIdForStrategy offers "BEST_PRICE"
      = Option.map NormalizedOffer.id
          (firstMinBy bpLe (offers.filter (fun o => o.inStock))))
    ∧ (recommendedOfferIdForStrategy offers "BEST_PRICE" = none
        ↔ offers.filter (fun o => o.inStock) = [])
    ∧ (∀ o, firstMinBy bpLe (offers.filter (fun o => o.inStock)) = some o →
        o ∈ offers.filter (fun o => o.inStock)
        ∧ (∀ p ∈ offers.filter (fun o => o.inStock), bpLe o p = true)
        ∧ ∃ n, ∃ hn : n < (offers.filter (fun o => o.inStock)).length,
            (offers.filter (fun o => o.inStock)).get ⟨n, hn⟩ = o ∧
            ∀ m, ∀ hm : m < (offers.filter (fun o => o.inStock)).length,
              m < n →
              bpLe ((offers.filter (fun o => o.inStock)).get ⟨m, hm⟩) o = false) := by
  have hshape := rank_shape offers "BEST_PRICE" (by decide)
  have hmap : recommendedOfferIdForStrategy offers "BEST_PRICE"
      = Option.map NormalizedOffer.id
          (firstMinBy bpLe (offers.filter (fun o => o.inStock))) := by
    rw [hshape]
    cases hfm : firstMinBy bpLe (offers.filter (fun o => o.inStock)) with
    | none => rfl
    | some o =>
      have hmem := firstMinBy_mem bpLe _ o hfm
      have hid : o.id ≠ "" := hids o (List.mem_of_mem_filter hmem)
      simp [hid]
  refine ⟨hmap, ?_, ?_⟩
  · rw [hmap]
    cases hfm : firstMinBy bpLe (offers.filter (fun o => o.inStock)) with
    | none => simpa using (firstMinBy_eq_none bpLe _).mp hfm
    | some o =>
      refine ⟨fun h => ?_, fun hnil => ?_⟩
      · simp at h
      · rw [hnil] at hfm
        simp [firstMinBy] at hfm
  · intro o hfm
    exact ⟨firstMinBy_mem bpLe _ o hfm,
      firstMinBy_min bpLe bpLe_total bpLe_trans _ o hfm,
      firstMinBy_earliest bpLe _ o hfm⟩

/-- Concrete witness data for the C1 ranking theorem. -/
def c1Offers : List NormalizedOffer :=
  [{ id := "a", vendorId := "v1", vendorName := "V1", productId := "p",
     title := "t", priceCents := 2000, shippingCents := 0, etaDays := 3,
     inStock := true, productUrl := "https://x.example/a",
     listingVerified := false, listingType := "ESTIMATED", itemCondition := none },
   { id := "b", vendorId := "v2", vendorName := "V2", productId := "p",
     title := "t", priceCents := 1500, shippingCents := 100, etaDays := 5,
     inStock := true, productUrl := "https://x.example/b",
     listingVerified := false, listingType := "ESTIMATED", itemCondition := none },
   { id := "c", vendorId := "v3", vendorName := "V3", productId := "p",
     title := "t", priceCents := 1000, shippingCents := 0, etaDays := 2,
     inStock := false, productUrl := "https://x.example/c",
     listingVerified := false, listingType := "ESTIMATED", itemCondition := none }]

/-- Witness: the C1 theorem applied at a concrete offer list (the in-stock
offer with the lower total, id "b", is recommended). -/
theorem ranking_best_price_first_minimum_witness :
    (∀ o ∈ c1Offers, o.id ≠ "")
    ∧ recommendedOfferIdForStrategy c1Offers "BEST_PRICE"
        = Option.map NormalizedOffer.id
            (firstMinBy bpLe (c1Offers.filter (fun o => o.inStock)))
    ∧ recommendedOfferIdForStrategy c1Offers "BEST_PRICE" = some "b" :=
  ⟨by decide, (ranking_best_price_first_minimum c1Offers (by decide)).1, by decide⟩

/-- Claim C6: for every list of normalized offers, BALANCED ranking returns
the same recommended offer id as BEST_PRICE ranking (both order by
ascending price+shipping total, ties by ascending etaDays). -/
theorem ranking_balanced_eq_best_price (offers : List NormalizedOffer) :
    recommendedOfferIdForStrategy offers "BALANCED"
      = recommendedOfferIdForStrategy offers "BEST_PRICE" := by
  rw [rank_shape offers "BALANCED" (by decide),
    rank_shape offers "BEST_PRICE" (by decide)]

/-! Price-drift simulator / alert engine (priceMonitor.js).

The database rows live in a `DB` record; prisma reads/writes become pure
list operations on it.  `Math.random()` draws are injected as oracles
indexed by the offer's position in the scan: `r i` is the draw feeding
`randomPercent(-0.02, 0.02)` for offer `i`, and `e1 i`, `e2 i` are the
draws deciding the ETA shift (`Math.random() < 0.2` and `< 0.5`).  The
human-readable message string and the `toFixed`-rounded drop percentage of
the queued notification are not modelled; the structured payload fields
the alert logic produces are. -/

structure Product where
  id : String
  title : String
  brand : String
deriving Repr, DecidableEq

/-- A persisted Watchlist row (prisma model `Watchlist`), as read by the
alert engine and the watchlist endpoints. -/
structure WatchItem where
  id : String
  userId : String
  productId : String
  pctDropThreshold : ℚ
  targetPriceCents : Option Int
  shippingImprovementOn : Bool
  preferredOfferId : Option String
  preferredVendorId : Option String
  preferredProductUrl : Option String
  lastSeenBestPriceCents : Option Int
  lastSeenBestEtaDays : Option Int
  lastNotifiedAt : Option Int
deriving Repr, DecidableEq

/-- The persisted state the core reads and writes.  `nextOfferId` feeds the
id generator standing in for prisma's cuid generation on `offer.create`. -/
structure DB where
  products : List Product
  offers : List Offer
  watchItems : List WatchItem
  nextOfferId : Nat
deriving Repr, DecidableEq

/-- Embeds `clamp` (priceMonitor.js lines 7-9):
`Math.max(min, Math.min(value, max))`. -/
def clamp (value lo hi : Int) : Int :=
  max lo (min value hi)

/-- JavaScript `Math.round` on the exact rational value:
`Math.round(x) = floor(x + 0.5)` for every finite x. -/
def jsRound (q : ℚ) : Int :=
  ⌊q + 1 / 2⌋

/-- Embeds `randomPercent` (priceMonitor.js lines 3-5):
`min + Math.random() * (max - min)` with the `Math.random()` draw `r`. -/
def randomPercent (lo hi r : ℚ) : ℚ :=
  lo + r * (hi - lo)

/-- One offer's mutation in the drift loop (priceMonitor.js lines 42-54):
price drifts by `randomPercent(-0.02, 0.02)` and is clamped to
[50, 500000]; with the 20%/50% draws the ETA shifts by ±1 and is clamped
to [1, 10]. -/
def driftOffer (offer : Offer) (r e1 e2 : ℚ) : Offer :=
  let drift := randomPercent (-2 / 100) (2 / 100) r
  let newPrice := clamp (jsRound ((offer.priceCents : ℚ) * (1 + drift))) 50 500000
  let etaShift : Int := if e1 < 1 / 5 then (if e2 < 1 / 2 then -1 else 1) else 0
  let newEta := clamp (offer.etaDays + etaShift) 1 10
  { offer with priceCents := newPrice, etaDays := newEta }

/-- The post-drift offer table: the drift loop applied to every stored
offer, with the oracle draws indexed by scan position. -/
def tickOffers (db : DB) (r e1 e2 : Nat → ℚ) : List Offer :=
  db.offers.enum.map (fun p => driftOffer p.2 (r p.1) (e1 p.1) (e2 p.1))

/-- The before/after record pushed to `changedItems` for one offer. -/
structure ChangedItem where
  offerId : String
  productId : String
  oldPriceCents : Int
  newPriceCents : Int
  oldEtaDays : Int
  newEtaDays : Int
deriving Repr, DecidableEq

/-- The callback of the `offers.reduce` inside `getBestOfferForProduct`
(priceMonitor.js lines 28-35): replace the accumulator when the next offer
has a strictly lower price+shipping total, or an equal total and a
strictly lower etaDays. -/
def bestOfferReducer (best : Option Offer) (next : Offer) : Option Offer :=
  match best with
  | none => some next
  | some b =>
    let bestTotal := b.priceCents + b.shippingCents
    let nextTotal := next.priceCents + next.shippingCents
    if nextTotal < bestTotal then some next
    else if nextTotal = bestTotal ∧ next.etaDays < b.etaDays then some next
    else some b

/-- Embeds `getBestOfferForProduct` (priceMonitor.js lines 23-36): reduce
over the in-stock offers of the product with `bestOfferReducer`, starting
from null. -/
def getBestOfferForProduct (offers : List Offer) (productId : String) : Option Offer :=
  let l := offers.filter (fun o => o.productId = productId && o.inStock)
  if l.length = 0 then none
  else l.foldl bestOfferReducer none

/-- The baseline of the drop computation (priceMonitor.js line 76):
`item.lastSeenBestPriceCents || bestOffer.priceCents` — a missing or zero
(falsy) stored baseline falls back to the current best price. -/
def tickBaseline (item : WatchItem) (best : Offer) : Int :=
  match item.lastSeenBestPriceCents with
  | some n => if n = 0 then best.priceCents else n
  | none => best.priceCents

/-- The drop percentage (priceMonitor.js line 77):
`baseline > 0 ? ((baseline - best.priceCents) / baseline) * 100 : 0`. -/
def tickDropPct (item : WatchItem) (best : Offer) : ℚ :=
  let baseline := tickBaseline item best
  if 0 < baseline then (((baseline : ℚ) - (best.priceCents : ℚ)) / (baseline : ℚ)) * 100
  else 0

/-- The target-price disjunct (priceMonitor.js line 78):
`item.targetPriceCents && best.priceCents <= item.targetPriceCents`; a
missing or zero (falsy) target never hits. -/
def tickTargetHit (item : WatchItem) (best : Offer) : Bool :=
  match item.targetPriceCents with
  | none => false
  | some t => if t = 0 then false else decide (best.priceCents ≤ t)

/-- The shipping-improvement disjunct (priceMonitor.js lines 79-83). -/
def tickShippingImproved (item : WatchItem) (best : Offer) : Bool :=
  item.shippingImprovementOn &&
    match item.lastSeenBestEtaDays with
    | none => false
    | some e => decide (best.etaDays < e)

/-- The alert rule (priceMonitor.js line 85):
`dropPct >= item.pctDropThreshold || !!targetHit || !!shippingImproved`. -/
def shouldNotify (item : WatchItem) (best : Offer) : Bool :=
  decide (item.pctDropThreshold ≤ tickDropPct item best) ||
    tickTargetHit item best || tickShippingImproved item best

/-- The structured payload of a queued DEAL_ALERT notification (message
text and toFixed-rounded percentage not modelled). -/
structure Notification where
  watchlistId : String
  userId : String
  productId : String
  bestOfferId : String
  priceCents : Int
  etaDays : Int
deriving Repr, DecidableEq

/-- One iteration of the watch-item loop (priceMonitor.js lines 72-119):
look up the current best offer of the item's product in the post-drift
offer table; skip the item when none exists or the alert rule does not
fire; otherwise produce the queued notification and the updated row
(lastNotifiedAt, lastSeenBestPriceCents, lastSeenBestEtaDays). -/
def evalWatchItem (offers : List Offer) (now : Int) (item : WatchItem) :
    Option (Notification × WatchItem) :=
  match getBestOfferForProduct offers item.productId with
  | none => none
  | some best =>
    if shouldNotify item best then
      some ({ watchlistId := item.id
              userId := item.userId
              productId := item.productId
              bestOfferId := best.id
              priceCents := best.priceCents
              etaDays := best.etaDays },
            { item with
                lastNotifiedAt := some now
                lastSeenBestPriceCents := some best.priceCents
                lastSeenBestEtaDays := some best.etaDays })
    else none

structure TickResult where
  db : DB
  changedItems : List ChangedItem
  notifications : List Notification
deriving Repr, DecidableEq

/-- Embeds `runPriceTick` (priceMonitor.js lines 38-122).  Phase one
drifts every stored offer and records the before/after pairs; phase two
walks the watch items sequentially over the already-updated offer table,
queueing a notification and advancing the baseline for each item whose
alert rule fires, leaving the others untouched.  Item evaluations are
independent of one another (each reads only the post-drift offers and the
item row itself), so the sequential loop is expressed as a map plus a
filterMap over the same per-item step. -/
def runPriceTick (db : DB) (r e1 e2 : Nat → ℚ) (now : Int) : TickResult :=
  let offers2 := tickOffers db r e1 e2
  let changedItems := (db.offers.zip offers2).map (fun p =>
    { offerId := p.1.id
      productId := p.1.productId
      oldPriceCents := p.1.priceCents
      newPriceCents := p.2.priceCents
      oldEtaDays := p.1.etaDays
      newEtaDays := p.2.etaDays })
  let notifications := db.watchItems.filterMap
    (fun item => (evalWatchItem offers2 now item).map Prod.fst)
  let watchItems2 := db.watchItems.map (fun item =>
    match evalWatchItem offers2 now item with
    | some x => x.2
    | none => item)
  { db := { db with offers := offers2, watchItems := watchItems2 }
    changedItems := changedItems
    notifications := notifications }

/-! The reduce in `getBestOfferForProduct` also selects the first minimum
of the lowest-total / lowest-eta preorder, like the ranking policy. -/

/-- The preorder realised by `bestOfferReducer`: ascending price+shipping
total, ties broken by ascending etaDays. -/
def bestOfferLe (a b : Offer) : Bool :=
  decide (a.priceCents + a.shippingCents < b.priceCents + b.shippingCents) ||
    (decide (a.priceCents + a.shippingCents = b.priceCents + b.shippingCents) &&
      decide (a.etaDays ≤ b.etaDays))

theorem bestOfferLe_total (a b : Offer) :
    bestOfferLe a b = true ∨ bestOfferLe b a = true := by
  simp only [bestOfferLe, Bool.or_eq_true, Bool.and_eq_true, decide_eq_true_eq]
  omega

theorem bestOfferLe_trans (a b c : Offer) (hab : bestOfferLe a b = true)
    (hbc : bestOfferLe b c = true) : bestOfferLe a c = true := by
  simp only [bestOfferLe, Bool.or_eq_true, Bool.and_eq_true, decide_eq_true_eq] at *
  omega

theorem bestOfferLe_of (a b : Offer)
    (h : a.priceCents + a.shippingCents < b.priceCents + b.shippingCents ∨
      (a.priceCents + a.shippingCents = b.priceCents + b.shippingCents ∧
        a.etaDays ≤ b.etaDays)) :
    bestOfferLe a b = true := by
  simp only [bestOfferLe, Bool.or_eq_true, Bool.and_eq_true, decide_eq_true_eq]
  omega

theorem bestOfferLe_false_of (a b : Offer)
    (h : b.priceCents + b.shippingCents < a.priceCents + a.shippingCents ∨
      (b.priceCents + b.shippingCents = a.priceCents + a.shippingCents ∧
        b.etaDays < a.etaDays)) :
    bestOfferLe a b = false := by
  cases hb : bestOfferLe a b with
  | false => rfl
  | true =>
    exfalso
    simp only [bestOfferLe, Bool.or_eq_true, Bool.and_eq_true, decide_eq_true_eq] at hb
    omega

theorem firstMinBy_shuffle (b y : Offer) (t : List Offer) :
    firstMinBy bestOfferLe (b :: y :: t)
      = firstMinBy bestOfferLe ((if y.priceCents + y.shippingCents <
            b.priceCents + b.shippingCents ∨
            (y.priceCents + y.shippingCents = b.priceCents + b.shippingCents ∧
              y.etaDays < b.etaDays) then y else b) :: t) := by
  by_cases hC : y.priceCents + y.shippingCents < b.priceCents + b.shippingCents ∨
      (y.priceCents + y.shippingCents = b.priceCents + b.shippingCents ∧
        y.etaDays < b.etaDays)
  · rw [if_pos hC, firstMinBy_cons bestOfferLe b (y :: t)]
    cases h1 : firstMinBy bestOfferLe (y :: t) with
    | none => exact absurd ((firstMinBy_eq_none bestOfferLe (y :: t)).mp h1) (by simp)
    | some w =>
      have hbw : bestOfferLe b w = false := by
        rw [firstMinBy_cons bestOfferLe y t] at h1
        cases ht : firstMinBy bestOfferLe t with
        | none =>
          simp only [ht, Option.some.injEq] at h1
          subst w
          exact bestOfferLe_false_of b y hC
        | some m =>
          simp only [ht] at h1
          by_cases hA : bestOfferLe y m = true
          · rw [if_pos hA] at h1
            simp only [Option.some.injEq] at h1
            subst w
            exact bestOfferLe_false_of b y hC
          · rw [if_neg hA] at h1
            simp only [Option.some.injEq] at h1
            subst w
            refine bestOfferLe_false_of b m ?_
            simp only [bestOfferLe, Bool.or_eq_true, Bool.and_eq_true,
              decide_eq_true_eq] at hA
            omega
      simp [hbw]
  · rw [if_neg hC]
    rw [firstMinBy_cons bestOfferLe b (y :: t), firstMinBy_cons bestOfferLe y t,
      firstMinBy_cons bestOfferLe b t]
    cases ht : firstMinBy bestOfferLe t with
    | none =>
      simp only [ht]
      have hby : bestOfferLe b y = true := bestOfferLe_of b y (by omega)
      simp [hby]
    | some m =>
      simp only [ht]
      by_cases hA : bestOfferLe y m = true
      · rw [if_pos hA]
        have hby : bestOfferLe b y = true := bestOfferLe_of b y (by omega)
        have hbm : bestOfferLe b m = true := by
          simp only [bestOfferLe, Bool.or_eq_true, Bool.and_eq_true,
            decide_eq_true_eq] at hA
          exact bestOfferLe_of b m (by omega)
        simp [hby, hbm]
      · rw [if_neg hA]

theorem foldl_bestOfferReducer_some (t : List Offer) : ∀ b : Offer,
    t.foldl bestOfferReducer (some b) = firstMinBy bestOfferLe (b :: t) := by
  induction t with
  | nil => intro b; simp [firstMinBy]
  | cons y t ih =>
    intro b
    rw [List.foldl_cons]
    have hstep : bestOfferReducer (some b) y
        = some (if y.priceCents + y.shippingCents < b.priceCents + b.shippingCents ∨
            (y.priceCents + y.shippingCents = b.priceCents + b.shippingCents ∧
              y.etaDays < b.etaDays) then y else b) := by
      simp only [bestOfferReducer]
      split_ifs <;> first | rfl | (exfalso; omega)
    rw [hstep, ih, ← firstMinBy_shuffle]

/-- The reduce in `getBestOfferForProduct` returns the first in-stock offer
of the product attaining the minimal total, ties broken by eta then input
order. -/
theorem getBestOfferForProduct_eq_firstMinBy (offers : List Offer) (pid : String) :
    getBestOfferForProduct offers pid
      = firstMinBy bestOfferLe
          (offers.filter (fun o => o.productId = pid && o.inStock)) := by
  unfold getBestOfferForProduct
  cases hl : offers.filter (fun o => o.productId = pid && o.inStock) with
  | nil => simp [firstMinBy]
  | cons x xs =>
    simp only [List.length_cons, List.foldl_cons]
    have : bestOfferReducer none x = some x := rfl
    rw [this, foldl_bestOfferReducer_some]
    simp

theorem tickTargetHit_iff (item : WatchItem) (best : Offer) :
    tickTargetHit item best = true ↔
      ∃ t, item.targetPriceCents = some t ∧ t ≠ 0 ∧ best.priceCents ≤ t := by
  unfold tickTargetHit
  cases h : item.targetPriceCents with
  | none => simp
  | some t =>
    by_cases ht : t = 0
    · simp [ht]
    · simp [ht]

theorem tickShippingImproved_iff (item : WatchItem) (best : Offer) :
    tickShippingImproved item best = true ↔
      item.shippingImprovementOn = true ∧
        ∃ e, item.lastSeenBestEtaDays = some e ∧ best.etaDays < e := by
  unfold tickShippingImproved
  cases h : item.lastSeenBestEtaDays <;> simp [h]

theorem shouldNotify_iff (item : WatchItem) (best : Offer) :
    shouldNotify item best = true ↔
      (item.pctDropThreshold ≤ tickDropPct item best
        ∨ (∃ t, item.targetPriceCents = some t ∧ t ≠ 0 ∧ best.priceCents ≤ t)
        ∨ (item.shippingImprovementOn = true
            ∧ ∃ e, item.lastSeenBestEtaDays = some e ∧ best.etaDays < e)) := by
  simp only [shouldNotify, Bool.or_eq_true, decide_eq_true_eq, tickTargetHit_iff,
    tickShippingImproved_iff]
  exact or_assoc

/-- Concrete watch item for the C4 threshold example: 15% drop threshold,
last-seen baseline 10000 cents, no target price, no shipping tracking. -/
def c4Item : WatchItem :=
  { id := "w", userId := "u", productId := "p", pctDropThreshold := 15,
    targetPriceCents := none, shippingImprovementOn := false,
    preferredOfferId := none, preferredVendorId := none,
    preferredProductUrl := none, lastSeenBestPriceCents := some 10000,
    lastSeenBestEtaDays := none, lastNotifiedAt := none }

/-- Concrete in-stock best offer at the given price for the C4 example. -/
def c4Offer (price : Int) : Offer :=
  { id := "o1", vendorId := "v", vendorName := "V", productId := "p",
    title := "t", priceCents := price, shippingCents := 0, etaDays := 5,
    inStock := true, productUrl := "https://shop.example/item/1" }

/-- Claim C4: one tick pass queues a notification for a watch item exactly
when the drop percentage versus the last-seen baseline reaches
pctDropThreshold, or a set (non-zero) target price is met or beaten, or
shipping tracking is on and the best ETA improved versus the last seen
one; concretely, with threshold 15 and baseline 10000 a best price of 8600
(14% drop) does not fire and 8499 (15.01% drop) fires. -/
theorem alert_fires_iff_rule :
    (∀ (offers : List Offer) (now : Int) (item : WatchItem),
      (evalWatchItem offers now item).isSome = true ↔
        ∃ best, getBestOfferForProduct offers item.productId = some best ∧
          (item.pctDropThreshold ≤ tickDropPct item best
            ∨ (∃ t, item.targetPriceCents = some t ∧ t ≠ 0 ∧ best.priceCents ≤ t)
            ∨ (item.shippingImprovementOn = true
                ∧ ∃ e, item.lastSeenBestEtaDays = some e ∧ best.etaDays < e)))
    ∧ tickDropPct c4Item (c4Offer 8600) = 14
    ∧ tickDropPct c4Item (c4Offer 8499) = 1501 / 100
    ∧ shouldNotify c4Item (c4Offer 8600) = false
    ∧ shouldNotify c4Item (c4Offer 8499) = true
    ∧ evalWatchItem [c4Offer 8600] 0 c4Item = none
    ∧ (evalWatchItem [c4Offer 8499] 0 c4Item).isSome = true := by
  refine ⟨?_, ?_, ?_, ?_, ?_, ?_, ?_⟩
  · intro offers now item
    cases hb : getBestOfferForProduct offers item.productId with
    | none => simp [evalWatchItem, hb]
    | some best =>
      by_cases hs : shouldNotify item best = true
      · have hL : (evalWatchItem offers now item).isSome = true := by
          simp [evalWatchItem, hb, hs]
        exact ⟨fun _ => ⟨best, rfl, (shouldNotify_iff item best).mp hs⟩, fun _ => hL⟩
      · constructor
        · intro h
          simp [evalWatchItem, hb, hs] at h
        · rintro ⟨b2, hb2, hp⟩
          simp only [Option.some.injEq] at hb2
          subst b2
          exact absurd ((shouldNotify_iff item best).mpr hp) hs
  · norm_num [tickDropPct, tickBaseline, c4Item, c4Offer]
  · norm_num [tickDropPct, tickBaseline, c4Item, c4Offer]
  · norm_num [shouldNotify, tickDropPct, tickBaseline, tickTargetHit,
      tickShippingImproved, c4Item, c4Offer]
  · norm_num [shouldNotify, tickDropPct, tickBaseline, tickTargetHit,
      tickShippingImproved, c4Item, c4Offer]
  · norm_num [evalWatchItem, getBestOfferForProduct, bestOfferReducer,
      List.filter, List.foldl, shouldNotify, tickDropPct, tickBaseline,
      tickTargetHit, tickShippingImproved, c4Item, c4Offer]
  · norm_num [evalWatchItem, getBestOfferForProduct, bestOfferReducer,
      List.filter, List.foldl, shouldNotify, tickDropPct, tickBaseline,
      tickTargetHit, tickShippingImproved, c4Item, c4Offer]

/-- Claim C8: a watch item whose alert rule does not fire during a tick is
left entirely unchanged — the whole row, and in particular
lastSeenBestPriceCents, lastSeenBestEtaDays and lastNotifiedAt, keeps its
pre-tick value. -/
theorem nonfiring_watchitem_unchanged (db : DB) (r e1 e2 : Nat → ℚ) (now : Int)
    (i : Nat) (hi : i < db.watchItems.length)
    (hnf : evalWatchItem (tickOffers db r e1 e2) now (db.watchItems.get ⟨i, hi⟩) = none) :
    ∃ hi2 : i < (runPriceTick db r e1 e2 now).db.watchItems.length,
      (runPriceTick db r e1 e2 now).db.watchItems.get ⟨i, hi2⟩
          = db.watchItems.get ⟨i, hi⟩
      ∧ ((runPriceTick db r e1 e2 now).db.watchItems.get ⟨i, hi2⟩).lastSeenBestPriceCents
          = (db.watchItems.get ⟨i, hi⟩).lastSeenBestPriceCents
      ∧ ((runPriceTick db r e1 e2 now).db.watchItems.get ⟨i, hi2⟩).lastSeenBestEtaDays
          = (db.watchItems.get ⟨i, hi⟩).lastSeenBestEtaDays
      ∧ ((runPriceTick db r e1 e2 now).db.watchItems.get ⟨i, hi2⟩).lastNotifiedAt
          = (db.watchItems.get ⟨i, hi⟩).lastNotifiedAt := by
  have hlen : (runPriceTick db r e1 e2 now).db.watchItems.length
      = db.watchItems.length := by
    simp [runPriceTick]
  refine ⟨hlen ▸ hi, ?_⟩
  have hget : (runPriceTick db r e1 e2 now).db.watchItems.get ⟨i, hlen ▸ hi⟩
      = db.watchItems.get ⟨i, hi⟩ := by
    show (db.watchItems.map _).get _ = _
    rw [List.get_map]
    simp only [hnf]
  exact ⟨hget, by rw [hget], by rw [hget], by rw [hget]⟩

/-- Concrete database for the C8 witness: one product, one in-stock offer
at 9500 cents, one watch item with baseline 10000 and threshold 15 (a 5%
drop, which does not fire). -/
def c8Item : WatchItem :=
  { id := "w", userId := "u", productId := "p", pctDropThreshold := 15,
    targetPriceCents := none, shippingImprovementOn := false,
    preferredOfferId := none, preferredVendorId := none,
    preferredProductUrl := none, lastSeenBestPriceCents := some 10000,
    lastSeenBestEtaDays := none, lastNotifiedAt := none }

def c8Offer : Offer :=
  { id := "o1", vendorId := "v", vendorName := "V", productId := "p",
    title := "t", priceCents := 9500, shippingCents := 0, etaDays := 5,
    inStock := true, productUrl := "https://shop.example/item/1" }

def c8Db : DB :=
  { products := [{ id := "p", title := "Widget", brand := "Acme" }],
    offers := [c8Offer],
    watchItems := [c8Item], nextOfferId := 0 }

/-- Witness: the C8 theorem applied at a concrete non-firing tick (drift
draw 1/2 gives zero drift; the 5% drop stays below the 15% threshold). -/
theorem nonfiring_watchitem_unchanged_witness :
    ∃ hi2 : 0 < (runPriceTick c8Db (fun _ => 1/2) (fun _ => 1) (fun _ => 1) 7).db.watchItems.length,
      (runPriceTick c8Db (fun _ => 1/2) (fun _ => 1) (fun _ => 1) 7).db.watchItems.get ⟨0, hi2⟩
          = c8Db.watchItems.get ⟨0, by norm_num [c8Db]⟩
      ∧ ((runPriceTick c8Db (fun _ => 1/2) (fun _ => 1) (fun _ => 1) 7).db.watchItems.get ⟨0, hi2⟩).lastSeenBestPriceCents
          = (c8Db.watchItems.get ⟨0, by norm_num [c8Db]⟩).lastSeenBestPriceCents
      ∧ ((runPriceTick c8Db (fun _ => 1/2) (fun _ => 1) (fun _ => 1) 7).db.watchItems.get ⟨0, hi2⟩).lastSeenBestEtaDays
          = (c8Db.watchItems.get ⟨0, by norm_num [c8Db]⟩).lastSeenBestEtaDays
      ∧ ((runPriceTick c8Db (fun _ => 1/2) (fun _ => 1) (fun _ => 1) 7).db.watchItems.get ⟨0, hi2⟩).lastNotifiedAt
          = (c8Db.watchItems.get ⟨0, by norm_num [c8Db]⟩).lastNotifiedAt :=
  nonfiring_watchitem_unchanged c8Db (fun _ => 1/2) (fun _ => 1) (fun _ => 1) 7 0
    (by norm_num [c8Db])
    (by norm_num [evalWatchItem, getBestOfferForProduct, bestOfferReducer,
      tickOffers, driftOffer, randomPercent, jsRound, clamp, List.enum,
      List.filter, List.foldl, shouldNotify, tickDropPct, tickBaseline,
      tickTargetHit, tickShippingImproved, c8Db, c8Item, c8Offer])

/-- Claim C10: a watch item whose (non-zero) target price is met or beaten
by the current best offer queues a notification on every tick on which
that holds — the rule reads neither lastNotifiedAt nor the advanced
baseline, so there is no cooldown or deduplication for target-price
alerts. -/
theorem target_alert_no_cooldown (db : DB) (r e1 e2 : Nat → ℚ) (now : Int)
    (item : WatchItem) (t : Int) (best : Offer)
    (hmem : item ∈ db.watchItems)
    (htgt : item.targetPriceCents = some t) (ht : t ≠ 0)
    (hbest : getBestOfferForProduct (tickOffers db r e1 e2) item.productId = some best)
    (hmet : best.priceCents ≤ t) :
    (∃ n ∈ (runPriceTick db r e1 e2 now).notifications,
        n.watchlistId = item.id ∧ n.bestOfferId = best.id
          ∧ n.priceCents = best.priceCents)
    ∧ (∀ (x : Option Int) (seenP seenE : Option Int),
        (evalWatchItem (tickOffers db r e1 e2) now
            { item with lastNotifiedAt := x, lastSeenBestPriceCents := seenP,
                        lastSeenBestEtaDays := seenE }).isSome = true) := by
  have htarget : tickTargetHit item best = true := by
    simp [tickTargetHit, htgt, ht, hmet]
  have hfire : shouldNotify item best = true := by
    simp [shouldNotify, htarget]
  constructor
  · have heval : (evalWatchItem (tickOffers db r e1 e2) now item).map Prod.fst
        = some { watchlistId := item.id, userId := item.userId,
                 productId := item.productId, bestOfferId := best.id,
                 priceCents := best.priceCents, etaDays := best.etaDays } := by
      simp [evalWatchItem, hbest, hfire]
    have hnotif :
        ({ watchlistId := item.id, userId := item.userId,
           productId := item.productId, bestOfferId := best.id,
           priceCents := best.priceCents, etaDays := best.etaDays } : Notification)
          ∈ (runPriceTick db r e1 e2 now).notifications := by
      show _ ∈ db.watchItems.filterMap
        (fun it => (evalWatchItem (tickOffers db r e1 e2) now it).map Prod.fst)
      exact List.mem_filterMap.mpr ⟨item, hmem, heval⟩
    exact ⟨_, hnotif, rfl, rfl, rfl⟩
  · intro x seenP seenE
    have htarget2 : tickTargetHit
        { item with lastNotifiedAt := x, lastSeenBestPriceCents := seenP,
                    lastSeenBestEtaDays := seenE } best = true := by
      simp [tickTargetHit, htgt, ht, hmet]
    have hfire2 : shouldNotify
        { item with lastNotifiedAt := x, lastSeenBestPriceCents := seenP,
                    lastSeenBestEtaDays := seenE } best = true := by
      simp [shouldNotify, htarget2]
    simp [evalWatchItem, hbest, hfire2]

/-- Concrete data for the C10 witness: the item has already fired (its
baseline equals the current best price of 900 and lastNotifiedAt is set),
yet the 1000-cent target keeps firing. -/
def c10Offer : Offer :=
  { id := "o1", vendorId := "v", vendorName := "V", productId := "p",
    title := "t", priceCents := 900, shippingCents := 0, etaDays := 5,
    inStock := true, productUrl := "https://shop.example/item/1" }

def c10Item : WatchItem :=
  { id := "w", userId := "u", productId := "p", pctDropThreshold := 15,
    targetPriceCents := some 1000, shippingImprovementOn := false,
    preferredOfferId := none, preferredVendorId := none,
    preferredProductUrl := none, lastSeenBestPriceCents := some 900,
    lastSeenBestEtaDays := some 5, lastNotifiedAt := some 5 }

def c10Db : DB :=
  { products := [{ id := "p", title := "Widget", brand := "Acme" }],
    offers := [c10Offer],
    watchItems := [c10Item], nextOfferId := 0 }

/-- Witness: the C10 theorem applied at a concrete already-fired item. -/
theorem target_alert_no_cooldown_witness :
    (∃ n ∈ (runPriceTick c10Db (fun _ => 1/2) (fun _ => 1) (fun _ => 1) 9).notifications,
        n.watchlistId = c10Item.id ∧ n.bestOfferId = c10Offer.id
          ∧ n.priceCents = c10Offer.priceCents)
    ∧ (∀ (x : Option Int) (seenP seenE : Option Int),
        (evalWatchItem (tickOffers c10Db (fun _ => 1/2) (fun _ => 1) (fun _ => 1)) 9
            { c10Item with lastNotifiedAt := x, lastSeenBestPriceCents := seenP,
                           lastSeenBestEtaDays := seenE }).isSome = true) :=
  target_alert_no_cooldown c10Db (fun _ => 1/2) (fun _ => 1) (fun _ => 1) 9
    c10Item 1000 c10Offer (by simp [c10Db]) rfl (by norm_num)
    (by norm_num [getBestOfferForProduct, bestOfferReducer, tickOffers,
      driftOffer, randomPercent, jsRound, clamp, List.enum, List.filter,
      List.foldl, c10Db, c10Offer, c10Item])
    (by norm_num [c10Offer])

/-- Claim C9: the drift loop replaces each offer's price with
round(old × (1+d)) for a drift d in [-2%, +2%], clamps it to
[50, 500000] cents (so a 10000-cent offer always lands in [9800, 10200]
both before and after clamping), and shifts etaDays by at most one day,
clamped to [1, 10]. -/
theorem offer_drift_bounds (offer : Offer) (rq e1 e2 : ℚ)
    (hr0 : 0 ≤ rq) (hr1 : rq < 1) :
    ((driftOffer offer rq e1 e2).priceCents
        = clamp (jsRound ((offer.priceCents : ℚ)
            * (1 + randomPercent (-2/100) (2/100) rq))) 50 500000)
    ∧ -2/100 ≤ randomPercent (-2/100) (2/100) rq
    ∧ randomPercent (-2/100) (2/100) rq ≤ 2/100
    ∧ 50 ≤ (driftOffer offer rq e1 e2).priceCents
    ∧ (driftOffer offer rq e1 e2).priceCents ≤ 500000
    ∧ (offer.priceCents = 10000 →
        9800 ≤ jsRound ((offer.priceCents : ℚ)
            * (1 + randomPercent (-2/100) (2/100) rq))
        ∧ jsRound ((offer.priceCents : ℚ)
            * (1 + randomPercent (-2/100) (2/100) rq)) ≤ 10200
        ∧ 9800 ≤ (driftOffer offer rq e1 e2).priceCents
        ∧ (driftOffer offer rq e1 e2).priceCents ≤ 10200)
    ∧ 1 ≤ (driftOffer offer rq e1 e2).etaDays
    ∧ (driftOffer offer rq e1 e2).etaDays ≤ 10
    ∧ (1 ≤ offer.etaDays → offer.etaDays ≤ 10 →
        (driftOffer offer rq e1 e2).etaDays - offer.etaDays ≤ 1
        ∧ offer.etaDays - (driftOffer offer rq e1 e2).etaDays ≤ 1)
    ∧ (∀ (db : DB) (R E1 E2 : Nat → ℚ) (now : Int) (i : Nat),
        ∀ hi : i < db.offers.length,
        ∃ hi2 : i < (runPriceTick db R E1 E2 now).db.offers.length,
          (runPriceTick db R E1 E2 now).db.offers.get ⟨i, hi2⟩
            = driftOffer (db.offers.get ⟨i, hi⟩) (R i) (E1 i) (E2 i)) := by
  have hd1 : -2/100 ≤ randomPercent (-2/100) (2/100) rq := by
    have : 0 ≤ rq * (2/100 - (-2/100)) := by
      apply mul_nonneg hr0
      norm_num
    simp only [randomPercent]
    linarith
  have hd2 : randomPercent (-2/100) (2/100) rq ≤ 2/100 := by
    have : rq * (2/100 - (-2/100)) ≤ 1 * (2/100 - (-2/100)) := by
      apply mul_le_mul_of_nonneg_right (le_of_lt hr1)
      norm_num
    simp only [randomPercent]
    linarith
  have hshift : (if e1 < 1/5 then (if e2 < 1/2 then (-1 : Int) else 1) else 0) = -1
      ∨ (if e1 < 1/5 then (if e2 < 1/2 then (-1 : Int) else 1) else 0) = 0
      ∨ (if e1 < 1/5 then (if e2 < 1/2 then (-1 : Int) else 1) else 0) = 1 := by
    split_ifs <;> simp
  refine ⟨rfl, hd1, hd2, ?_, ?_, ?_, ?_, ?_, ?_, ?_⟩
  · show (50 : Int) ≤ clamp _ 50 500000
    simp only [clamp]
    omega
  · show clamp _ 50 500000 ≤ (500000 : Int)
    simp only [clamp]
    omega
  · intro h10k
    have hq1 : (9800 : ℚ) ≤ (offer.priceCents : ℚ)
        * (1 + randomPercent (-2/100) (2/100) rq) := by
      rw [h10k]
      push_cast
      nlinarith [hd1, hd2]
    have hq2 : (offer.priceCents : ℚ)
        * (1 + randomPercent (-2/100) (2/100) rq) ≤ 10200 := by
      rw [h10k]
      push_cast
      nlinarith [hd1, hd2]
    have hr1b : (9800 : Int) ≤ jsRound ((offer.priceCents : ℚ)
        * (1 + randomPercent (-2/100) (2/100) rq)) := by
      rw [jsRound, Int.le_floor]
      push_cast
      linarith
    have hr2b : jsRound ((offer.priceCents : ℚ)
        * (1 + randomPercent (-2/100) (2/100) rq)) ≤ 10200 := by
      have : jsRound ((offer.priceCents : ℚ)
          * (1 + randomPercent (-2/100) (2/100) rq)) < 10201 := by
        rw [jsRound, Int.floor_lt]
        push_cast
        linarith
      omega
    refine ⟨hr1b, hr2b, ?_, ?_⟩
    · show (9800 : Int) ≤ clamp _ 50 500000
      simp only [clamp]
      omega
    · show clamp _ 50 500000 ≤ (10200 : Int)
      simp only [clamp]
      omega
  · show (1 : Int) ≤ clamp _ 1 10
    simp only [clamp]
    omega
  · show clamp _ 1 10 ≤ (10 : Int)
    simp only [clamp]
    omega
  · intro he1 he10
    constructor
    · show clamp (offer.etaDays + _) 1 10 - offer.etaDays ≤ 1
      simp only [clamp]
      rcases hshift with h | h | h <;> rw [h] <;> omega
    · show offer.etaDays - clamp (offer.etaDays + _) 1 10 ≤ 1
      simp only [clamp]
      rcases hshift with h | h | h <;> rw [h] <;> omega
  · intro db R E1 E2 now i hi
    have hlen : (runPriceTick db R E1 E2 now).db.offers.length
        = db.offers.length := by
      simp [runPriceTick, tickOffers]
    refine ⟨hlen ▸ hi, ?_⟩
    show (tickOffers db R E1 E2).get _ = _
    simp only [tickOffers]
    simp [List.get_eq_getElem, List.getElem_map, List.getElem_enum]

/-- Concrete offer for the C9 witness. -/
def c9Offer : Offer :=
  { id := "o1", vendorId := "v", vendorName := "V", productId := "p",
    title := "t", priceCents := 10000, shippingCents := 0, etaDays := 5,
    inStock := true, productUrl := "https://shop.example/item/1" }

/-- Witness: the C9 theorem applied to a 10000-cent offer with the draw
1/2 (zero drift). -/
theorem offer_drift_bounds_witness :
    ((0 : ℚ) ≤ 1/2 ∧ (1/2 : ℚ) < 1)
    ∧ 9800 ≤ (driftOffer c9Offer (1/2) 1 1).priceCents
    ∧ (driftOffer c9Offer (1/2) 1 1).priceCents ≤ 10200
    ∧ 1 ≤ (driftOffer c9Offer (1/2) 1 1).etaDays
    ∧ (driftOffer c9Offer (1/2) 1 1).etaDays ≤ 10 := by
  have h := offer_drift_bounds c9Offer (1/2) 1 1 (by norm_num) (by norm_num)
  obtain ⟨heq, hd1, hd2, hp1, hp2, h10k, he1, he2, hrest⟩ := h
  obtain ⟨hja, hjb, hca, hcb⟩ := h10k rfl
  exact ⟨⟨by norm_num, by norm_num⟩, hca, hcb, he1, he2⟩

/-! Claim C5: whether the tick's alert evaluation honours a pinned
preferred offer. -/

/-- The computed best offer of product p1: cheapest in-stock offer. -/
def c5OfferA : Offer :=
  { id := "oA", vendorId := "vA", vendorName := "VA", productId := "p1",
    title := "t", priceCents := 500, shippingCents := 0, etaDays := 5,
    inStock := true, productUrl := "https://shop.example/item/a" }

/-- The pinned offer of the watch item: in stock but far more expensive. -/
def c5OfferB : Offer :=
  { id := "oB", vendorId := "vB", vendorName := "VB", productId := "p1",
    title := "t", priceCents := 9000, shippingCents := 0, etaDays := 3,
    inStock := true, productUrl := "https://shop.example/item/b" }

/-- Watch item pinned to offer oB via preferredOfferId, baseline 10000,
threshold 15%. -/
def c5Item : WatchItem :=
  { id := "w1", userId := "u1", productId := "p1", pctDropThreshold := 15,
    targetPriceCents := none, shippingImprovementOn := false,
    preferredOfferId := some "oB", preferredVendorId := none,
    preferredProductUrl := none, lastSeenBestPriceCents := some 10000,
    lastSeenBestEtaDays := none, lastNotifiedAt := none }

def c5Db : DB :=
  { products := [{ id := "p1", title := "Widget", brand := "Acme" }],
    offers := [c5OfferA, c5OfferB],
    watchItems := [c5Item], nextOfferId := 0 }

/-- Claim C5 is false on the code: the tick's alert evaluation ignores the
pinned preferred offer.  At this concrete database the watch item pins the
in-stock offer oB (9000 cents, a 10% drop versus the 10000 baseline, which
would not fire), yet the tick evaluates the computed cheapest offer oA
(500 cents, 95% drop) and queues a notification whose payload names oA. -/
theorem tick_preferred_pin_counterexample :
    c5Item.preferredOfferId = some "oB"
    ∧ (c5OfferB ∈ c5Db.offers ∧ c5OfferB.id = "oB" ∧ c5OfferB.inStock = true
        ∧ c5OfferB.productId = c5Item.productId)
    ∧ shouldNotify c5Item c5OfferB = false
    ∧ (runPriceTick c5Db (fun _ => 1/2) (fun _ => 1) (fun _ => 1) 0).notifications
        = [{ watchlistId := "w1", userId := "u1", productId := "p1",
             bestOfferId := "oA", priceCents := 500, etaDays := 5 }]
    ∧ "oA" ≠ "oB" := by
  refine ⟨rfl, ⟨by simp [c5Db], rfl, rfl, rfl⟩, ?_, ?_, by decide⟩
  · norm_num [shouldNotify, tickDropPct, tickBaseline, tickTargetHit,
      tickShippingImproved, c5Item, c5OfferB]
  · norm_num [runPriceTick, tickOffers, driftOffer, randomPercent, jsRound,
      clamp, evalWatchItem, getBestOfferForProduct, bestOfferReducer,
      shouldNotify, tickDropPct, tickBaseline, tickTargetHit,
      tickShippingImproved, List.enum, List.filter, List.foldl,
      List.filterMap, c5Db, c5Item, c5OfferA, c5OfferB]

/-- Claim C5 (amended): the tick's alert evaluation always uses the
computed best offer — the first in-stock offer of the product attaining
the lowest price+shipping total, ties broken by lowest etaDays then by
input order — and is entirely independent of the item's
preferredOfferId / preferredVendorId / preferredProductUrl pins (which
take precedence only in the watchlist read path, outside the tick). -/
theorem tick_eval_ignores_pin (offers : List Offer) (now : Int)
    (item : WatchItem) (p1 p2 p3 : Option String) :
    ((evalWatchItem offers now
        { item with preferredOfferId := p1, preferredVendorId := p2,
                    preferredProductUrl := p3 }).map Prod.fst
      = (evalWatchItem offers now item).map Prod.fst)
    ∧ (getBestOfferForProduct offers item.productId
        = firstMinBy bestOfferLe
            (offers.filter (fun o => o.productId = item.productId && o.inStock)))
    ∧ (∀ best, getBestOfferForProduct offers item.productId = some best →
        best ∈ offers.filter (fun o => o.productId = item.productId && o.inStock)
        ∧ (∀ p ∈ offers.filter (fun o => o.productId = item.productId && o.inStock),
            bestOfferLe best p = true)
        ∧ ∃ n, ∃ hn : n < (offers.filter
              (fun o => o.productId = item.productId && o.inStock)).length,
            (offers.filter (fun o => o.productId = item.productId && o.inStock)).get
                ⟨n, hn⟩ = best
            ∧ ∀ m, ∀ hm : m < (offers.filter
                  (fun o => o.productId = item.productId && o.inStock)).length,
                m < n →
                bestOfferLe ((offers.filter
                  (fun o => o.productId = item.productId && o.inStock)).get
                    ⟨m, hm⟩) best = false) := by
  have hsn : ∀ b : Offer, shouldNotify
      { item with preferredOfferId := p1, preferredVendorId := p2,
                  preferredProductUrl := p3 } b = shouldNotify item b :=
    fun _ => rfl
  refine ⟨?_, getBestOfferForProduct_eq_firstMinBy offers item.productId, ?_⟩
  · cases hb : getBestOfferForProduct offers item.productId with
    | none => simp [evalWatchItem, hb]
    | some best =>
      by_cases hs : shouldNotify item best = true <;>
        simp [evalWatchItem, hb, hs, hsn]
  · intro best hbest
    rw [getBestOfferForProduct_eq_firstMinBy] at hbest
    exact ⟨firstMinBy_mem bestOfferLe _ best hbest,
      firstMinBy_min bestOfferLe bestOfferLe_total bestOfferLe_trans _ best hbest,
      firstMinBy_earliest bestOfferLe _ best hbest⟩

/-- Witness: the amended C5 theorem applied at a concrete offer table
(oY is cheaper than oX, so the computed best is oY). -/
theorem tick_eval_ignores_pin_witness :
    getBestOfferForProduct [c5OfferA, c5OfferB] c5Item.productId = some c5OfferA
    ∧ (c5OfferA ∈ [c5OfferA, c5OfferB].filter
          (fun o => o.productId = c5Item.productId && o.inStock)
        ∧ (∀ p ∈ [c5OfferA, c5OfferB].filter
              (fun o => o.productId = c5Item.productId && o.inStock),
            bestOfferLe c5OfferA p = true)
        ∧ ∃ n, ∃ hn : n < ([c5OfferA, c5OfferB].filter
              (fun o => o.productId = c5Item.productId && o.inStock)).length,
            ([c5OfferA, c5OfferB].filter
                (fun o => o.productId = c5Item.productId && o.inStock)).get
                ⟨n, hn⟩ = c5OfferA
            ∧ ∀ m, ∀ hm : m < ([c5OfferA, c5OfferB].filter
                  (fun o => o.productId = c5Item.productId && o.inStock)).length,
                m < n →
                bestOfferLe (([c5OfferA, c5OfferB].filter
                  (fun o => o.productId = c5Item.productId && o.inStock)).get
                    ⟨m, hm⟩) c5OfferA = false) :=
  ⟨by decide,
    (tick_eval_ignores_pin [c5OfferA, c5OfferB] 0 c5Item none none none).2.2
      c5OfferA (by decide)⟩

/-! Offer aggregation (recognitionService.js lines 234-522 of the offer
service revision: `refreshWebOffersForProduct`, `getRankedOffers`).  The
live web search is injected as a `FetchResult` oracle: `ok offers` is a
fulfilled `fetchTopOffers` call, `error e` a rejected one (network error,
timeout, non-2xx or unparseable payload — the try/catch in the source
logs it and continues).  Storage writes are pure `DB` updates; prisma's
cuid generation on `offer.create` is modelled by the `nextOfferId`
counter. -/

/-- A candidate offer as `refreshWebOffersForProduct` consumes it from
`fetchTopOffers`.  `none` in a numeric field models a missing /
non-finite value (the source checks `Number.isFinite`), and the
`!o?.priceCents` falsy guard also skips an explicit 0. -/
structure WebOffer where
  vendorId : String
  vendorName : String
  title : String
  priceCents : Option Int
  shippingCents : Option Int
  etaDays : Option Int
  inStock : Bool
  productUrl : String
deriving Repr, DecidableEq

/-- The configuration flags the aggregation path reads (config.js). -/
structure Config where
  enableWebSearchOffers : Bool
  enableSerpApiProxy : Bool
  serpApiApiKey : String
deriving Repr, DecidableEq

/-- Outcome of the one awaited `fetchTopOffers({ query, strategy })` call. -/
inductive FetchResult where
  | ok (offers : List WebOffer)
  | error (msg : String)
deriving Repr, DecidableEq

/-- The id generator standing in for prisma's cuid on offer creation;
generated ids are never the empty string. -/
def freshOfferId (n : Nat) : String :=
  "offer-" ++ toString n

/-- One iteration of the upsert loop (recognitionService.js lines
333-365): skip a candidate with a falsy vendorId, productUrl or
priceCents, otherwise upsert by the (productId, vendorId) unique key. -/
def upsertOfferRow (db : DB) (productId : String) (product : Product)
    (o : WebOffer) : DB :=
  match o.priceCents with
  | none => db
  | some p =>
    if o.vendorId = "" || o.productUrl = "" || p = 0 then db
    else
      let vendorName := if o.vendorName = "" then o.vendorId else o.vendorName
      let title := if o.title = "" then product.title else o.title
      let shippingCents := o.shippingCents.getD 0
      let etaDays := o.etaDays.getD 5
      let productUrl := jsTrim o.productUrl
      if db.offers.any (fun row =>
          row.productId = productId && row.vendorId = o.vendorId) then
        { db with offers := db.offers.map (fun row =>
            if row.productId = productId && row.vendorId = o.vendorId then
              { row with vendorName := vendorName, title := title,
                         priceCents := p, shippingCents := shippingCents,
                         etaDays := etaDays, inStock := o.inStock,
                         productUrl := productUrl }
            else row) }
      else
        { db with
            offers := db.offers ++
              [{ id := freshOfferId db.nextOfferId, vendorId := o.vendorId,
                 vendorName := vendorName, productId := productId,
                 title := title, priceCents := p,
                 shippingCents := shippingCents, etaDays := etaDays,
                 inStock := o.inStock, productUrl := productUrl }]
            nextOfferId := db.nextOfferId + 1 }

/-- Hex digit used by the percent-encoder. -/
def hexDigit (n : Nat) : Char :=
  "0123456789ABCDEF".toList.getD n '0'

/-- Characters `encodeURIComponent` leaves as they are (the RFC 2396
unreserved set; 39 is the apostrophe code point). -/
def isUnreservedUri (c : Char) : Bool :=
  c.isAlphanum || c = '-' || c = '_' || c = '.' || c = '!' || c = '~' ||
    c = '*' || c.toNat = 39 || c = '(' || c = ')'

/-- Translation of JavaScript `encodeURIComponent` for ASCII strings (the
queries here are ASCII; multi-byte UTF-8 escaping is not modelled). -/
def encodeURIComponent (s : String) : String :=
  String.mk (s.toList.flatMap (fun c =>
    if isUnreservedUri c then [c]
    else ['%', hexDigit (c.toNat / 16), hexDigit (c.toNat % 16)]))

/-- One entry of the `fallbacks` array (recognitionService.js lines
382-411): the price multiplier is kept exact as a rational. -/
structure FallbackVendor where
  vendorId : String
  vendorName : String
  url : String
  priceMult : ℚ
  etaDays : Int
deriving Repr, DecidableEq

/-- The `fallbacks` array for the encoded query `q`. -/
def fallbackVendors (q : String) : List FallbackVendor :=
  [{ vendorId := "fallback:ebay", vendorName := "eBay",
     url := "https://www.ebay.com/sch/i.html?_nkw=" ++ q,
     priceMult := 92/100, etaDays := 6 },
   { vendorId := "fallback:walmart", vendorName := "Walmart",
     url := "https://www.walmart.com/search?q=" ++ q,
     priceMult := 98/100, etaDays := 4 },
   { vendorId := "fallback:target", vendorName := "Target",
     url := "https://www.target.com/s?searchTerm=" ++ q,
     priceMult := 103/100, etaDays := 5 },
   { vendorId := "fallback:bestbuy", vendorName := "Best Buy",
     url := "https://www.bestbuy.com/site/searchpage.jsp?st=" ++ q,
     priceMult := 105/100, etaDays := 5 }]

/-- JavaScript `Set.add`: append only when absent (first occurrence kept,
`size` is the length). -/
def setAdd (s : List String) (x : String) : List String :=
  if s.contains x then s else s ++ [x]

/-- The `new Set(existing.map(o => o.vendorId))` constructor. -/
def setOf (xs : List String) : List String :=
  xs.foldl setAdd []

/-- The `existing.reduce((m, o) => Math.min(m, o.priceCents || 1e12), 1e12)`
fold: a falsy (zero) price counts as the 1e12 sentinel. -/
def minExistingPrice (existing : List Offer) : Int :=
  existing.foldl
    (fun m o => min m (if o.priceCents = 0 then 1000000000000 else o.priceCents))
    1000000000000

/-- The fallback-synthesis loop (recognitionService.js lines 413-431):
skip vendors already present, create an offer priced
`max(99, round(basePrice × mult))`, and stop once three vendor ids are in
the set. -/
def fallbackLoop (productId title : String) (basePrice : Int) :
    List FallbackVendor → DB → List String → DB
  | [], db, _ => db
  | fb :: rest, db, vids =>
    if vids.contains fb.vendorId then
      fallbackLoop productId title basePrice rest db vids
    else
      let priceCents := max 99 (jsRound ((basePrice : ℚ) * fb.priceMult))
      let db2 : DB :=
        { db with
            offers := db.offers ++
              [{ id := freshOfferId db.nextOfferId, vendorId := fb.vendorId,
                 vendorName := fb.vendorName, productId := productId,
                 title := title, priceCents := priceCents, shippingCents := 0,
                 etaDays := fb.etaDays, inStock := true,
                 productUrl := fb.url }]
            nextOfferId := db.nextOfferId + 1 }
      let vids2 := setAdd vids fb.vendorId
      if 3 ≤ vids2.length then db2
      else fallbackLoop productId title basePrice rest db2 vids2

/-- Embeds `refreshWebOffersForProduct` (recognitionService.js lines
323-432): look up the product (missing product returns unchanged), build
the query, run the guarded web fetch+upsert block (a rejected fetch is
caught, logged and execution continues), then synthesize fallback offers
while fewer than three in-stock offers exist.  The `Promise.allSettled`
over the upserts is modelled as a fold: `fetchTopOffers` returns distinct
vendorIds, so the per-row upserts commute. -/
def refreshWebOffersForProduct (cfg : Config) (db : DB) (productId : String)
    (web : FetchResult) : DB :=
  match db.products.find? (fun p => p.id = productId) with
  | none => db
  | some product =>
    let query := normalizeWhitespace (jsTrim (product.brand ++ " " ++ product.title))
    if query = "" then db
    else
      let db1 :=
        if cfg.enableWebSearchOffers && cfg.enableSerpApiProxy
            && cfg.serpApiApiKey ≠ "" then
          match web with
          | .error _ => db
          | .ok webOffers =>
            webOffers.foldl (fun d o => upsertOfferRow d productId product o) db
        else db
      let existing := db1.offers.filter (fun o => o.productId = productId && o.inStock)
      if 3 ≤ existing.length then db1
      else
        let existingVendorIds := setOf (existing.map (fun o => o.vendorId))
        let minPrice := minExistingPrice existing
        let basePrice := if minPrice < 1000000000000 then minPrice else 1999
        let q := encodeURIComponent query
        fallbackLoop productId product.title basePrice (fallbackVendors q)
          db1 existingVendorIds

/-- The bundle `getRankedOffers` resolves with. -/
structure RankedOffersResult where
  offers : List NormalizedOffer
  recommendedOfferId : Option String
  strategy : String
deriving Repr, DecidableEq

/-- Embeds `getRankedOffers` (recognitionService.js lines 434-456): an
optional live refresh (whose own try/catch is a safety net on top of the
catch already inside the refresh), then load the in-stock offers of the
product, normalize them and apply the ranking policy. -/
def getRankedOffers (cfg : Config) (db : DB) (productId : String)
    (strategy : String) (refreshLive : Bool) (web : FetchResult) :
    DB × RankedOffersResult :=
  let db2 := if refreshLive then refreshWebOffersForProduct cfg db productId web else db
  let offers := db2.offers.filter (fun o => o.productId = productId && o.inStock)
  let normalized := offers.map normalizeOffer
  let recommendedOfferId := recommendedOfferIdForStrategy normalized strategy
  (db2, { offers := normalized, recommendedOfferId := recommendedOfferId,
          strategy := strategy })

/-- Claim C2: a failing external provider never propagates out of
getRankedOffers — a rejected fetch produces exactly the state and result
of a fetch that returned zero candidates (the embedding is total, so no
exception escapes) — and a productId that matches no product yields a
normal result with an empty offers list and a null recommendedOfferId
(offers reference existing products, the foreign-key invariant). -/
theorem getRankedOffers_provider_fault_isolated (cfg : Config) (db : DB)
    (productId strategy : String) :
    (∀ e, getRankedOffers cfg db productId strategy true (.error e)
        = getRankedOffers cfg db productId strategy true (.ok []))
    ∧ ((∀ p ∈ db.products, p.id ≠ productId) →
        (∀ o ∈ db.offers, ∃ p ∈ db.products, o.productId = p.id) →
        ∀ web,
          (getRankedOffers cfg db productId strategy true web).2.offers = []
          ∧ (getRankedOffers cfg db productId strategy true web).2.recommendedOfferId
              = none) := by
  constructor
  · intro e
    unfold getRankedOffers refreshWebOffersForProduct
    cases hf : db.products.find? (fun p => p.id = productId) with
    | none => rfl
    | some product =>
      by_cases hq : normalizeWhitespace (jsTrim (product.brand ++ " " ++ product.title)) = ""
      · simp [hq]
      · by_cases hc : (cfg.enableWebSearchOffers && cfg.enableSerpApiProxy
            && decide (cfg.serpApiApiKey ≠ "")) = true
        · simp [hq, hc, List.foldl]
        · simp [hq, hc]
  · intro habs hfk web
    have hf : db.products.find? (fun p => p.id = productId) = none := by
      rw [List.find?_eq_none]
      intro p hp
      simpa using habs p hp
    have hfil : db.offers.filter (fun o => o.productId = productId && o.inStock) = [] := by
      rw [List.filter_eq_nil_iff]
      intro o ho
      obtain ⟨p, hp, hop⟩ := hfk o ho
      intro hcontra
      simp only [Bool.and_eq_true, decide_eq_true_eq] at hcontra
      exact habs p hp (hop.symm.trans hcontra.1)
    have hrefresh : refreshWebOffersForProduct cfg db productId web = db := by
      unfold refreshWebOffersForProduct
      rw [hf]
    constructor
    · show ((refreshWebOffersForProduct cfg db productId web).offers.filter _).map _ = []
      rw [hrefresh, hfil]
      rfl
    · show recommendedOfferIdForStrategy
        (((refreshWebOffersForProduct cfg db productId web).offers.filter _).map _) _ = none
      rw [hrefresh, hfil]
      rfl

theorem freshOfferId_ne_empty (n : Nat) : freshOfferId n ≠ "" := by
  intro h
  have hlen := congrArg String.length h
  rw [freshOfferId, String.length_append] at hlen
  simp only [show ("offer-").length = 6 from rfl,
    show ("" : String).length = 0 from rfl] at hlen
  omega

theorem fallback_price_92 : max 99 (jsRound (((1999 : Int) : ℚ) * (92/100))) = 1839 := by
  have : jsRound (((1999 : Int) : ℚ) * (92/100)) = 1839 := by
    rw [jsRound, Int.floor_eq_iff] <;> norm_num
  rw [this]
  omega

theorem fallback_price_98 : max 99 (jsRound (((1999 : Int) : ℚ) * (98/100))) = 1959 := by
  have : jsRound (((1999 : Int) : ℚ) * (98/100)) = 1959 := by
    rw [jsRound, Int.floor_eq_iff] <;> norm_num
  rw [this]
  omega

theorem fallback_price_103 : max 99 (jsRound (((1999 : Int) : ℚ) * (103/100))) = 2059 := by
  have : jsRound (((1999 : Int) : ℚ) * (103/100)) = 2059 := by
    rw [jsRound, Int.floor_eq_iff] <;> norm_num
  rw [this]
  omega

/-- Claim C3: with live web search disabled and no existing in-stock
offers, the refresh synthesizes exactly three fallback offers — eBay at
max(99, round(1999×0.92)) = 1839 cents with ETA 6, Walmart at 1959 cents
with ETA 4, Target at 2059 cents with ETA 5 (Best Buy is skipped by the
three-vendor cut-off, and no created vendorId duplicates a present one,
the present set being empty) — and BEST_PRICE then recommends the eBay
offer's id. -/
theorem fallback_synthesis_three_offers (cfg : Config) (db : DB)
    (productId : String) (product : Product) (web : FetchResult)
    (hweb : cfg.enableWebSearchOffers = false)
    (hfind : db.products.find? (fun p => p.id = productId) = some product)
    (hquery : normalizeWhitespace (jsTrim (product.brand ++ " " ++ product.title)) ≠ "")
    (hnone : db.offers.filter (fun o => o.productId = productId && o.inStock) = []) :
    (refreshWebOffersForProduct cfg db productId web).offers
      = db.offers ++
        [{ id := freshOfferId db.nextOfferId, vendorId := "fallback:ebay",
           vendorName := "eBay", productId := productId, title := product.title,
           priceCents := max 99 (jsRound (((1999 : Int) : ℚ) * (92/100))),
           shippingCents := 0, etaDays := 6, inStock := true,
           productUrl := "https://www.ebay.com/sch/i.html?_nkw=" ++
             encodeURIComponent (normalizeWhitespace
               (jsTrim (product.brand ++ " " ++ product.title))) },
         { id := freshOfferId (db.nextOfferId + 1), vendorId := "fallback:walmart",
           vendorName := "Walmart", productId := productId, title := product.title,
           priceCents := max 99 (jsRound (((1999 : Int) : ℚ) * (98/100))),
           shippingCents := 0, etaDays := 4, inStock := true,
           productUrl := "https://www.walmart.com/search?q=" ++
             encodeURIComponent (normalizeWhitespace
               (jsTrim (product.brand ++ " " ++ product.title))) },
         { id := freshOfferId (db.nextOfferId + 2), vendorId := "fallback:target",
           vendorName := "Target", productId := productId, title := product.title,
           priceCents := max 99 (jsRound (((1999 : Int) : ℚ) * (103/100))),
           shippingCents := 0, etaDays := 5, inStock := true,
           productUrl := "https://www.target.com/s?searchTerm=" ++
             encodeURIComponent (normalizeWhitespace
               (jsTrim (product.brand ++ " " ++ product.title))) }]
    ∧ max 99 (jsRound (((1999 : Int) : ℚ) * (92/100))) = 1839
    ∧ max 99 (jsRound (((1999 : Int) : ℚ) * (98/100))) = 1959
    ∧ max 99 (jsRound (((1999 : Int) : ℚ) * (103/100))) = 2059
    ∧ (getRankedOffers cfg db productId "BEST_PRICE" true web).2.recommendedOfferId
        = some (freshOfferId db.nextOfferId) := by
  have hrefresh : refreshWebOffersForProduct cfg db productId web
      = { db with
            offers := db.offers ++
              [{ id := freshOfferId db.nextOfferId, vendorId := "fallback:ebay",
                 vendorName := "eBay", productId := productId,
                 title := product.title,
                 priceCents := max 99 (jsRound (((1999 : Int) : ℚ) * (92/100))),
                 shippingCents := 0, etaDays := 6, inStock := true,
                 productUrl := "https://www.ebay.com/sch/i.html?_nkw=" ++
                   encodeURIComponent (normalizeWhitespace
                     (jsTrim (product.brand ++ " " ++ product.title))) },
               { id := freshOfferId (db.nextOfferId + 1),
                 vendorId := "fallback:walmart", vendorName := "Walmart",
                 productId := productId, title := product.title,
                 priceCents := max 99 (jsRound (((1999 : Int) : ℚ) * (98/100))),
                 shippingCents := 0, etaDays := 4, inStock := true,
                 productUrl := "https://www.walmart.com/search?q=" ++
                   encodeURIComponent (normalizeWhitespace
                     (jsTrim (product.brand ++ " " ++ product.title))) },
               { id := freshOfferId (db.nextOfferId + 2),
                 vendorId := "fallback:target", vendorName := "Target",
                 productId := productId, title := product.title,
                 priceCents := max 99 (jsRound (((1999 : Int) : ℚ) * (103/100))),
                 shippingCents := 0, etaDays := 5, inStock := true,
                 productUrl := "https://www.target.com/s?searchTerm=" ++
                   encodeURIComponent (normalizeWhitespace
                     (jsTrim (product.brand ++ " " ++ product.title))) }]
            nextOfferId := db.nextOfferId + 3 } := by
    unfold refreshWebOffersForProduct
    simp only [hfind, hweb, Bool.false_and, Bool.false_eq_true, if_false,
      if_neg hquery, hnone, List.length_nil]
    norm_num [setOf, minExistingPrice, fallbackVendors, fallbackLoop, setAdd,
      List.contains, List.elem_cons, List.elem_nil,
      show ("fallback:walmart" : String) ≠ "fallback:ebay" from by decide,
      show ("fallback:target" : String) ≠ "fallback:ebay" from by decide,
      show ("fallback:target" : String) ≠ "fallback:walmart" from by decide,
      show ("fallback:bestbuy" : String) ≠ "fallback:ebay" from by decide,
      show ("fallback:bestbuy" : String) ≠ "fallback:walmart" from by decide,
      show ("fallback:bestbuy" : String) ≠ "fallback:target" from by decide]
  refine ⟨by rw [hrefresh], fallback_price_92, fallback_price_98,
    fallback_price_103, ?_⟩
  show (recommendedOfferIdForStrategy
    (((refreshWebOffersForProduct cfg db productId web).offers.filter
        (fun o => o.productId = productId && o.inStock)).map normalizeOffer)
    "BEST_PRICE") = some (freshOfferId db.nextOfferId)
  rw [hrefresh]
  rw [rank_shape _ "BEST_PRICE" (by decide)]
  simp only [List.filter_append, hnone, List.nil_append]
  rw [fallback_price_92, fallback_price_98, fallback_price_103]
  norm_num [List.filter, normalizeOffer, firstMinBy, bpLe,
    freshOfferId_ne_empty db.nextOfferId]

/-- Concrete input for the C3 witness: one product, no offers, web search
disabled. -/
def c3Product : Product :=
  { id := "p1", title := "Widget", brand := "Acme" }

def c3Cfg : Config :=
  { enableWebSearchOffers := false, enableSerpApiProxy := false,
    serpApiApiKey := "" }

def c3Db : DB :=
  { products := [c3Product], offers := [], watchItems := [], nextOfferId := 0 }

/-- Witness: the C3 theorem applied at the concrete empty-offer product;
BEST_PRICE recommends the first synthesized (eBay) offer's id. -/
theorem fallback_synthesis_three_offers_witness :
    c3Cfg.enableWebSearchOffers = false
    ∧ c3Db.products.find? (fun p => p.id = "p1") = some c3Product
    ∧ (getRankedOffers c3Cfg c3Db "p1" "BEST_PRICE" true (.ok [])).2.recommendedOfferId
        = some (freshOfferId c3Db.nextOfferId) :=
  ⟨rfl, by decide,
    (fallback_synthesis_three_offers c3Cfg c3Db "p1" c3Product (.ok []) rfl
      (by decide) (by decide) rfl).2.2.2.2⟩

/-! Provider adapter: the Amazon flow of webSearchProvider.js.  The SerpAPI
responses and the ASIN-hydration response are injected as data; the
adapter's regexes are translated into explicit left-to-right scanners
with the same leftmost-match semantics. -/

/-- Falsy-or on strings: `a || b` where the empty string is falsy. -/
def jsOrStr (a b : String) : String :=
  if a = "" then b else a

/-- Falsy-or on nullable integers: `a || b` where null and 0 are falsy. -/
def jsOrOptInt (a b : Option Int) : Option Int :=
  match a with
  | some n => if n = 0 then b else some n
  | none => b

/-- Embeds `toCents` (webSearchProvider.js lines 8-12): null for a
non-positive amount, else `Math.round(n * 100)`. -/
def toCents (amount : ℚ) : Option Int :=
  if amount ≤ 0 then none else some (jsRound (amount * 100))

def digitsToNat (ds : List Char) : Nat :=
  ds.foldl (fun acc c => acc * 10 + (c.toNat - 48)) 0

/-- Leftmost match of the regex `(\d+(?:\.\d+)?)`: the first maximal digit
run, with an optional fractional part when a dot is followed by a digit. -/
def firstNumber : List Char → Option ℚ
  | [] => none
  | c :: rest =>
    if c.isDigit then
      let ip := (c :: rest).takeWhile Char.isDigit
      match (c :: rest).dropWhile Char.isDigit with
      | '.' :: d :: ds =>
        if d.isDigit then
          let fp := (d :: ds).takeWhile Char.isDigit
          some ((digitsToNat ip : ℚ) + (digitsToNat fp : ℚ) / ((10 : ℚ) ^ fp.length))
        else some (digitsToNat ip : ℚ)
      | _ => some (digitsToNat ip : ℚ)
    else firstNumber rest

/-- The string arm of `parsePriceCents` (webSearchProvider.js lines
14-21): strip commas, trim, regex-extract the first decimal number, and
convert to cents. -/
def parsePriceCentsStr (s : String) : Option Int :=
  let raw := jsTrim (String.mk (s.toList.filter (fun c => c ≠ ',')))
  match firstNumber raw.toList with
  | none => none
  | some q => toCents q

/-- The price of one SerpAPI organic result:
`parsePriceCents(r.extracted_price || r.price)` where `extracted_price`
is a number (absent or zero falls through to the formatted string) and a
number goes straight to `toCents`. -/
def serpPriceCents (extracted : Option ℚ) (priceText : String) : Option Int :=
  match extracted with
  | some q => if q = 0 then parsePriceCentsStr priceText else toCents q
  | none => parsePriceCentsStr priceText

/-- Leftmost match of `(\d+)\s*(?:day|days)` over an already-lowercased
text: a digit run, optional whitespace, then the letters day. -/
def etaScan : List Char → Option Nat
  | [] => none
  | c :: rest =>
    if c.isDigit then
      let ds := (c :: rest).takeWhile Char.isDigit
      let after := ((c :: rest).dropWhile Char.isDigit).dropWhile Char.isWhitespace
      if ['d', 'a', 'y'].isPrefixOf after then some (digitsToNat ds)
      else etaScan rest
    else etaScan rest

/-- Embeds `estimateEtaDaysFromText` (webSearchProvider.js lines 23-31):
the matched day count clamped to [1, 14], null when nothing matches. -/
def estimateEtaDaysFromText (text : String) : Option Int :=
  match etaScan (jsToLowerCase text).toList with
  | none => none
  | some n => some (max 1 (min 14 (n : Int)))

def isWordChar (c : Char) : Bool :=
  c.isAlphanum || c = '_'

/-- One attempted match of the ASIN regex at a fixed position: after the
matched path prefix, ten alphanumeric characters followed by a word
boundary. -/
def asinAt (afterPat : List Char) : Option (List Char) :=
  let cand := afterPat.take 10
  if cand.length = 10 && cand.all Char.isAlphanum &&
      (match afterPat.drop 10 with
       | [] => true
       | d :: _ => !isWordChar d) then
    some cand
  else none

/-- Leftmost match of `\/(?:dp|gp\/product)\/([A-Z0-9]{10})\b` with the
case-insensitive flag. -/
def asinScan : List Char → Option (List Char)
  | [] => none
  | c :: rest =>
    if ((c :: rest).take 4).map Char.toLower = "/dp/".toList then
      match asinAt ((c :: rest).drop 4) with
      | some cand => some cand
      | none => asinScan rest
    else if ((c :: rest).take 12).map Char.toLower = "/gp/product/".toList then
      match asinAt ((c :: rest).drop 12) with
      | some cand => some cand
      | none => asinScan rest
    else asinScan rest

/-- Embeds `extractAmazonAsinFromUrl` (webSearchProvider.js lines 33-37):
the captured group uppercased, or the empty string. -/
def extractAmazonAsinFromUrl (url : String) : String :=
  match asinScan url.toList with
  | none => ""
  | some cand => String.mk (cand.map Char.toUpper)

/-- Embeds `canonicalizeUrl` (webSearchProvider.js lines 83-96) for
already-normalised absolute URLs: `new URL` parsing is modelled as
splitting a letters-only scheme at the first "://"; the protocol is
forced to https and the fragment dropped.  WHATWG normalisations the
claims never exercise (host lowercasing, default ports, percent and path
normalisation, non-special schemes) are not modelled; a string that does
not split parses as a failure and is returned unchanged, like the
source's catch branch. -/
def canonicalizeUrl (url : String) : String :=
  let raw := jsTrim url
  if raw = "" then ""
  else
    match raw.toList.findIdx? (fun c => c = ':') with
    | none => raw
    | some i =>
      let scheme := raw.toList.take i
      let after := raw.toList.drop (i + 1)
      if scheme ≠ [] && scheme.all Char.isAlpha &&
          ['/', '/'].isPrefixOf after && after.drop 2 ≠ [] then
        "https://" ++ String.mk ((after.drop 2).takeWhile (fun c => c ≠ '#'))
      else raw

/-- The `web:amazon` branch of `canonicalizeVendorUrl` (webSearchProvider.js
lines 98-106), the only branch the Amazon flow uses: rebuild the URL from
an extractable ASIN, else pass the canonicalized URL through. -/
def canonicalizeAmazonUrl (url : String) : String :=
  let raw := canonicalizeUrl url
  if raw = "" then ""
  else
    let asin := extractAmazonAsinFromUrl raw
    if asin ≠ "" then "https://www.amazon.com/dp/" ++ asin else raw

/-- A candidate offer of the provider adapters, the fields of
`normalizeOfferBase` plus the adapter-internal `rank` (source position)
and `asin` hints the Amazon flow spreads in. -/
structure Candidate where
  vendorId : String
  vendorName : String
  title : String
  priceCents : Option Int
  shippingCents : Int
  etaDays : Int
  inStock : Bool
  productUrl : String
  listingVerified : Bool
  listingType : String
  itemCondition : Option String
  rank : Int
  asin : String
deriving Repr, DecidableEq

/-- Embeds `normalizeOfferBase` (webSearchProvider.js lines 59-73): every
fresh candidate starts unverified and ESTIMATED; a non-finite etaDays
defaults to 5.  The rank/asin hints start empty and are overridden by the
caller's spread. -/
def normalizeOfferBase (vendorId vendorName title productUrl : String)
    (priceCents : Option Int) (etaDays : Option Int) : Candidate :=
  { vendorId := vendorId, vendorName := vendorName
    title := normalizeWhitespace title
    priceCents := priceCents
    shippingCents := 0
    etaDays := etaDays.getD 5
    inStock := true
    productUrl := jsTrim productUrl
    listingVerified := false
    listingType := "ESTIMATED"
    itemCondition := none
    rank := 0
    asin := "" }

/-- The `(a.priceCents || 1e12)` read of `pickBestOffer`. -/
def candPrice (a : Candidate) : Int :=
  match a.priceCents with
  | some p => if p = 0 then 1000000000000 else p
  | none => 1000000000000

/-- The `(a.etaDays || 99)` read of `pickBestOffer`. -/
def candEta (a : Candidate) : Int :=
  if a.etaDays = 0 then 99 else a.etaDays

/-- Embeds `pickBestOffer` (webSearchProvider.js lines 39-57); the three
strategy-specific JS sorts are stable, embedded as insertion sorts, and
`(a.shippingCents || 0)` is the identity on an integer field. -/
def pickBestOffer (offers : List Candidate) (strategy : String) : Option Candidate :=
  if offers.isEmpty then none
  else
    let pref := strategyPref strategy
    if pref = "FASTEST_SHIPPING" then
      (offers.insertionSort (fun a b => candEta a - candEta b ≤ 0)).head?
    else if pref = "BEST_PRICE" then
      (offers.insertionSort (fun a b => candPrice a - candPrice b ≤ 0)).head?
    else
      (offers.insertionSort (fun a b =>
        (if candPrice a + a.shippingCents ≠ candPrice b + b.shippingCents then
          candPrice a + a.shippingCents - (candPrice b + b.shippingCents)
        else candEta a - candEta b) ≤ 0)).head?

/-- One SerpAPI organic result as the Amazon flow reads it; empty strings
and `none` model absent fields. -/
structure SerpResult where
  link : String
  title : String
  snippet : String
  delivery : String
  extracted_price : Option ℚ
  price : String
deriving Repr, DecidableEq

/-- The ASIN-hydration response (`fetchAmazonProductViaSerpApi`). -/
structure AmazonDetail where
  link : String
  title : String
  delivery : String
  priceText : String
  extractedPrice : Option ℚ
deriving Repr, DecidableEq

/-- The `serp.map((r, idx) => ...)` callback of `fetchAmazonOffer`
(webSearchProvider.js lines 224-242): null for a result without an
extractable ASIN, else a fresh Amazon candidate carrying rank and asin. -/
def amazonCandidateOfSerp (p : Nat × SerpResult) : Option Candidate :=
  let asin := extractAmazonAsinFromUrl p.2.link
  if asin = "" then none
  else
    let eta := (estimateEtaDaysFromText (jsOrStr p.2.delivery p.2.snippet)).getD 4
    some { normalizeOfferBase "web:amazon" "Amazon" p.2.title
             (canonicalizeAmazonUrl p.2.link)
             (serpPriceCents p.2.extracted_price p.2.price)
             (some eta) with
           rank := (p.1 : Int), asin := asin }

/-- Embeds `fetchAmazonOffer` (webSearchProvider.js lines 214-271).  The
SerpAPI search response is `serp`; `detail` is the hydration call's
outcome, `none` meaning it threw (the catch returns the seed candidate
unchanged).  Candidates keep only results with an extractable ASIN; the
hydration overwrites price/title/ETA/URL and sets listingVerified purely
from the hydrated URL containing "/dp/". -/
def fetchAmazonOffer (serp : List SerpResult) (strategy : String)
    (detail : Option AmazonDetail) : Option Candidate :=
  let candidates := serp.enum.filterMap amazonCandidateOfSerp
  match pickBestOffer candidates strategy with
  | none => none
  | some bestSeed =>
    match detail with
    | none => some bestSeed
    | some d =>
      let priceCents :=
        jsOrOptInt
          (jsOrOptInt
            (match d.extractedPrice with
             | some q => if 0 < q then toCents q else none
             | none => none)
            (parsePriceCentsStr d.priceText))
          bestSeed.priceCents
      let eta :=
        match estimateEtaDaysFromText d.delivery with
        | some e => e
        | none => if bestSeed.etaDays = 0 then 4 else bestSeed.etaDays
      let url := jsTrim (jsOrStr d.link bestSeed.productUrl)
      some { bestSeed with
             title := jsOrStr (normalizeWhitespace d.title) bestSeed.title
             priceCents := priceCents
             etaDays := eta
             productUrl := canonicalizeAmazonUrl (jsOrStr url bestSeed.productUrl)
             listingVerified := url ≠ "" && jsIncludes url "/dp/"
             listingType :=
               if url ≠ "" && jsIncludes url "/dp/" then "EXACT"
               else bestSeed.listingType }

theorem mem_of_head?_insertionSort {α : Type} (r : α → α → Prop)
    [DecidableRel r] (l : List α) (c : α)
    (h : (l.insertionSort r).head? = some c) : c ∈ l := by
  cases hs : l.insertionSort r with
  | nil => rw [hs] at h; simp at h
  | cons x t =>
    rw [hs] at h
    simp only [List.head?_cons, Option.some.injEq] at h
    subst c
    have hx : x ∈ l.insertionSort r := by
      rw [hs]
      exact List.mem_cons_self x t
    exact (List.perm_insertionSort r l).mem_iff.mp hx

theorem pickBestOffer_mem (offers : List Candidate) (strategy : String)
    (c : Candidate) (h : pickBestOffer offers strategy = some c) : c ∈ offers := by
  unfold pickBestOffer at h
  split at h
  · exact absurd h (by simp)
  · dsimp only at h
    split at h
    · exact mem_of_head?_insertionSort _ offers c h
    · split at h
      · exact mem_of_head?_insertionSort _ offers c h
      · exact mem_of_head?_insertionSort _ offers c h

/-- Concrete SerpAPI search result for the C7 counterexample: a clean
Amazon listing link with an extractable ASIN seeds the candidate. -/
def c7Serp : List SerpResult :=
  [{ link := "https://www.amazon.com/dp/B0TESTASIN", title := "Acme Widget",
     snippet := "", delivery := "", extracted_price := none, price := "" }]

/-- Concrete hydration response for the C7 counterexample: the hydrated
link contains "/dp/" (so the code marks the candidate verified) but no
ten-character ASIN, and it carries the search marker "?q=". -/
def c7Detail : AmazonDetail :=
  { link := "https://www.amazon.com/dp/deal?q=shoes", title := "Acme Widget Deal",
    delivery := "", priceText := "", extractedPrice := none }

/-- Claim C7 is false on the code: the Amazon hydration step classifies a
candidate `listingVerified = true` from the hydrated URL containing
"/dp/" alone.  Here the hydrated link has no extractable ASIN, so the
candidate's productUrl keeps the search marker "?q=" (isLikelySearchUrl
is true) while listingVerified is true. -/
theorem amazon_hydration_search_url_verified_counterexample :
    (fetchAmazonOffer c7Serp "BEST_PRICE" (some c7Detail)).map
        (fun c => (c.productUrl, isLikelySearchUrl c.productUrl, c.listingVerified))
      = some ("https://www.amazon.com/dp/deal?q=shoes", true, true) := by
  decide

/-- Claim C7 (amended): the normalizer applied to persisted offers never
classifies a search-marker URL as listingVerified (it always comes out
ESTIMATED), and Amazon candidates that skip hydration (the hydration call
threw) are always unverified; only the Amazon hydration success path can
mark a candidate verified from a "/dp/" URL that still carries a search
marker. -/
theorem search_url_never_verified_in_normalizer :
    (∀ o : Offer, isLikelySearchUrl (jsTrim o.productUrl) = true →
      (normalizeOffer o).listingVerified = false
      ∧ (normalizeOffer o).listingType = "ESTIMATED")
    ∧ (∀ (serp : List SerpResult) (strategy : String) (c : Candidate),
        fetchAmazonOffer serp strategy none = some c →
          c.listingVerified = false ∧ c.listingType = "ESTIMATED") := by
  constructor
  · intro o h
    constructor
    · simp [normalizeOffer, h]
    · simp [normalizeOffer, h]
  · intro serp strategy c h
    simp only [fetchAmazonOffer] at h
    cases hp : pickBestOffer (serp.enum.filterMap amazonCandidateOfSerp) strategy with
    | none => rw [hp] at h; simp at h
    | some s =>
      rw [hp] at h
      simp only [Option.some.injEq] at h
      subst c
      have hmem := pickBestOffer_mem _ strategy s hp
      obtain ⟨p, _, hps⟩ := List.mem_filterMap.mp hmem
      unfold amazonCandidateOfSerp at hps
      by_cases ha : extractAmazonAsinFromUrl p.2.link = ""
      · simp [ha] at hps
      · simp only [ha, if_neg, ite_false, Option.some.injEq] at hps
        rw [← hps]
        exact ⟨rfl, rfl⟩

end Omnicart
